import Mathlib

/-!
Shallow embedding of the credential-custody core of the reworq-api backend:
the authorization gate (`authorizeUserAccess`, `getGoogleServiceByUserId`),
the token refresh protocol (`ensureFreshAccessToken` / `refreshAndSaveTokens`),
the OAuth URL builder (`getGoogleOAuthUrl`), and the calendar conflict scan
and event creation of `GoogleService` (`checkConflict`, `createEvent`).

Times are milliseconds since the Unix epoch, as `Int` (JavaScript `Date`
arithmetic).  JavaScript truthiness on optional strings / numbers is made
explicit (`strTruthy`, `intTruthy`).  Fallible code returns `Except`,
with error constructors named after the spec's taxonomy; the source throws
`Error` values whose messages correspond one-to-one to these constructors.
-/

namespace Reworq

/-- Error taxonomy of the credential layer.  The source throws `Error`s with
fixed messages: "User not authenticated" (`notAuthenticated`),
"Unauthorized: Cannot access another user's resources" / "... integrations"
(`unauthorized`), "No Google integration found" (`notConnected`), a rethrown
`invalid_grant` refresh failure (`credentialRevoked`), and any other refresh
failure (`refreshFailed`). -/
inductive GErr where
  | notAuthenticated
  | unauthorized
  | notConnected
  | credentialRevoked
  | refreshFailed
deriving DecidableEq, Repr

/-- One stored Integration document (`IntegrationModel`): the per-(user,
provider) credential record.  `id` models the Mongo `_id`; `expires_at` is
the expiry instant in epoch milliseconds (`null`able in the schema);
`updated_at` is the last-mutation timestamp. -/
structure Integration where
  id : Nat
  user_id : String
  name : String
  access_token : Option String
  refresh_token : Option String
  expires_at : Option Int
  updated_at : Int
deriving DecidableEq, Repr

/-- JavaScript truthiness of an optional string: absent and `""` are falsy. -/
def strTruthy : Option String → Bool
  | none => false
  | some s => s ≠ ""

/-- JavaScript truthiness of an optional number: absent and `0` are falsy. -/
def intTruthy : Option Int → Bool
  | none => false
  | some n => n ≠ 0

/-- `authorizeUserAccess(req, resourceUserId)` (src/unnamed/part_004):
fails when no authenticated user is on the request, fails with
`unauthorized` when the (string-normalized) principal id differs from the
resource owner id, and returns `true` otherwise.  The principal is
`req.user._id` when present. -/
def authorizeUserAccess (principal : Option String) (resourceUserId : String) :
    Except GErr Bool :=
  match principal with
  | none => .error .notAuthenticated
  | some pid =>
    if pid ≠ resourceUserId then .error .unauthorized
    else .ok true

/-- `TOKEN_SKEW_MS = 5 * 60 * 1000`: the preemptive refresh window. -/
def TOKEN_SKEW_MS : Int := 5 * 60 * 1000

/-- The freshness test of `ensureFreshAccessToken` (src/unnamed/part_002):
`exp` is `new Date(integration.expires_at).getTime()` when `expires_at` is
set and `0` otherwise; a refresh is attempted iff
`!exp || exp - now <= TOKEN_SKEW_MS`. -/
def needsRefresh (expires_at : Option Int) (now : Int) : Bool :=
  let exp : Int := match expires_at with
    | some e => e
    | none => 0
  exp == 0 || exp - now ≤ TOKEN_SKEW_MS

/-- The token payload delivered by the provider on a successful refresh
(the argument of the `tokens` event listener in `refreshAndSaveTokens`). -/
structure Tokens where
  access_token : Option String
  refresh_token : Option String
  expiry_date : Option Int
deriving DecidableEq, Repr

/-- The `$set` document accumulated by the `tokens` listener of
`refreshAndSaveTokens`: each field is `some v` exactly when the listener
adds it to `updates`. -/
structure Updates where
  access_token : Option String
  refresh_token : Option String
  expires_at : Option Int
deriving DecidableEq, Repr

/-- The update computation of `refreshAndSaveTokens` (src/unnamed/part_002,
lines 65-79): a field is written only when the provider returned a truthy
value for it that differs from the stored one (expiry compared via the
ISO rendering of the millisecond instant, which is injective). -/
def computeUpdates (integration : Integration) (tokens : Tokens) : Updates :=
  { access_token :=
      if strTruthy tokens.access_token ∧ tokens.access_token ≠ integration.access_token
      then tokens.access_token else none,
    refresh_token :=
      if strTruthy tokens.refresh_token ∧ tokens.refresh_token ≠ integration.refresh_token
      then tokens.refresh_token else none,
    expires_at :=
      if intTruthy tokens.expiry_date ∧ tokens.expiry_date ≠ integration.expires_at
      then tokens.expiry_date else none }

/-- `Object.keys(updates).length` is nonzero. -/
def nonEmptyUpdates (u : Updates) : Bool :=
  u.access_token.isSome || u.refresh_token.isSome || u.expires_at.isSome

/-- `Object.assign(target_field, update_field)` on one field: an update key
present in `updates` overwrites, an absent key leaves the field alone. -/
def overwrite {α : Type} (upd : Option α) (old : Option α) : Option α :=
  match upd with
  | some v => some v
  | none => old

/-- Applying the `$set {updates, updated_at: new Date()}` document to a
record: both the `updateOne` write and the `Object.assign(integration,
updates)` in-memory update perform exactly this (the caller applies it
only when `nonEmptyUpdates`). -/
def applyUpdates (i : Integration) (u : Updates) (now : Int) : Integration :=
  { i with
    access_token := overwrite u.access_token i.access_token,
    refresh_token := overwrite u.refresh_token i.refresh_token,
    expires_at := overwrite u.expires_at i.expires_at,
    updated_at := now }

/-- Outcome of `client.getAccessToken()` when it actually hits the provider's
token endpoint: either new tokens (which fire the `tokens` event), or an
`invalid_grant` error response, or some other (transient) failure. -/
inductive RefreshOutcome where
  | success (tokens : Tokens)
  | invalidGrant
  | transientFailure
deriving DecidableEq, Repr

/-- `IntegrationModel.findOne({user_id, name: "google"})` over the store,
modelled as first match in document order. -/
def findIntegration (store : List Integration) (uid : String) : Option Integration :=
  store.find? (fun i => i.user_id == uid && i.name == "google")

/-- Lookup by `_id` (first match; `_id` is unique in Mongo). -/
def findById (store : List Integration) (iid : Nat) : Option Integration :=
  store.find? (fun i => i.id == iid)

/-- `IntegrationModel.updateOne({_id: iid}, {$set: ...})`: apply `f` to the
first document whose `_id` matches, leave everything else alone. -/
def updateById (store : List Integration) (iid : Nat) (f : Integration → Integration) :
    List Integration :=
  match store with
  | [] => []
  | i :: rest =>
    if i.id == iid then f i :: rest
    else i :: updateById rest iid f

/-- Result of the client-factory pipeline: the `Except` outcome carrying the
in-memory integration the rest of the request sees, the store after the
call, and the observable effects (was the store read, was the provider's
token endpoint called, was anything written). -/
structure GResult where
  result : Except GErr Integration
  store : List Integration
  storeRead : Bool
  refreshCalled : Bool
  storeWrote : Bool
deriving Repr

/-- The freshness-and-refresh phase shared by `getGoogleService` and
`getGoogleServiceByUserId`: `refreshAndSaveTokens` registers the `tokens`
listener, then `ensureFreshAccessToken` runs the freshness test and, when
it fails, calls `client.getAccessToken()`.  On refreshed tokens the
listener persists the changed fields (with `updated_at`) and
`Object.assign`s them onto the in-memory integration; on `invalid_grant`
the record's `updated_at` alone is touched and the error is rethrown;
on any other failure the error propagates with no write. -/
def tokenPhase (integration : Integration) (store : List Integration)
    (now : Int) (outcome : RefreshOutcome) : GResult :=
  if needsRefresh integration.expires_at now then
    match outcome with
    | .success tokens =>
      let u := computeUpdates integration tokens
      if nonEmptyUpdates u then
        { result := .ok (applyUpdates integration u now),
          store := updateById store integration.id (fun r => applyUpdates r u now),
          storeRead := true, refreshCalled := true, storeWrote := true }
      else
        { result := .ok integration, store := store,
          storeRead := true, refreshCalled := true, storeWrote := false }
    | .invalidGrant =>
      { result := .error .credentialRevoked,
        store := updateById store integration.id (fun r => { r with updated_at := now }),
        storeRead := true, refreshCalled := true, storeWrote := true }
    | .transientFailure =>
      { result := .error .refreshFailed, store := store,
        storeRead := true, refreshCalled := true, storeWrote := false }
  else
    { result := .ok integration, store := store,
      storeRead := true, refreshCalled := false, storeWrote := false }

/-- `getGoogleService(req)` (src/unnamed/part_002, lines 98-131): requires an
authenticated user on the request, looks up the user's "google"
Integration, fails `notConnected` when there is none, then runs the
refresh phase and returns the client (carrying the in-memory
integration). -/
def getGoogleService (user : Option String) (store : List Integration)
    (now : Int) (outcome : RefreshOutcome) : GResult :=
  match user with
  | none =>
    { result := .error .notAuthenticated, store := store,
      storeRead := false, refreshCalled := false, storeWrote := false }
  | some uid =>
    match findIntegration store uid with
    | none =>
      { result := .error .notConnected, store := store,
        storeRead := true, refreshCalled := false, storeWrote := false }
    | some integration => tokenPhase integration store now outcome

/-- `getGoogleServiceByUserId(userId, requestingUserId)` (src/unnamed/
part_002, lines 141-175): the authorization check `userId !==
requestingUserId` throws `unauthorized` before any store access; otherwise
the flow is identical to `getGoogleService`. -/
def getGoogleServiceByUserId (userId requestingUserId : String)
    (store : List Integration) (now : Int) (outcome : RefreshOutcome) : GResult :=
  if userId ≠ requestingUserId then
    { result := .error .unauthorized, store := store,
      storeRead := false, refreshCalled := false, storeWrote := false }
  else
    match findIntegration store userId with
    | none =>
      { result := .error .notConnected, store := store,
        storeRead := true, refreshCalled := false, storeWrote := false }
    | some integration => tokenPhase integration store now outcome

/-- The parameter object passed to `auth.generateAuthUrl` by
`getGoogleOAuthUrl(scopes, state)` (src/unnamed/part_002, lines 177-187).
URL rendering by the SDK is deterministic in these parameters. -/
structure AuthUrlParams where
  access_type : Option String
  scope : List String
  state : Option String
  prompt : Option String
  include_granted_scopes : Bool
deriving DecidableEq, Repr

/-- `getGoogleOAuthUrl(scopes, state)`: every call passes `access_type:
"offline"`, `prompt: "consent"` and `include_granted_scopes: true`
unconditionally, alongside the caller's scopes and optional state. -/
def getGoogleOAuthUrl (scopes : List String) (state : Option String) : AuthUrlParams :=
  { access_type := some "offline", scope := scopes, state := state,
    prompt := some "consent", include_granted_scopes := true }

/-- A calendar event as fetched from the provider by `checkConflict`
(src/unnamed/part_004).  `startTime`/`endTime` are `some t` exactly when
`event.start?.dateTime` / `event.end?.dateTime` is a truthy string, with
`t` its parsed epoch-millisecond instant (a truthy `Date` compares by this
instant). -/
structure GEvent where
  id : Option String
  summary : Option String
  status : Option String
  startTime : Option Int
  endTime : Option Int
deriving DecidableEq, Repr

/-- The record `checkConflict` pushes onto `conflicts` for an overlapping
event: id, summary, and the ISO renderings of the two instants. -/
structure ConflictEvent where
  id : Option String
  summary : Option String
  startTime : Int
  endTime : Int
deriving DecidableEq, Repr

/-- The scan loop of `GoogleService.checkConflict` (src/unnamed/part_004,
lines 111-136) over the fetched `events`, for a requested interval
`[startTime, endTime)`: skip cancelled events, skip events without a timed
start or end, keep an event exactly when `eventStart < endTime &&
startTime < eventEnd`. -/
def checkConflict (startTime endTime : Int) (events : List GEvent) :
    List ConflictEvent :=
  match events with
  | [] => []
  | e :: rest =>
    if e.status == some "cancelled" then checkConflict startTime endTime rest
    else
      match e.startTime, e.endTime with
      | some s, some en =>
        if s < endTime ∧ startTime < en then
          { id := e.id, summary := e.summary, startTime := s, endTime := en } ::
            checkConflict startTime endTime rest
        else checkConflict startTime endTime rest
      | _, _ => checkConflict startTime endTime rest

/-- The `conflict` field of `checkConflictController`'s response
(src/src/controllers/platforms/google.ts): `events.length > 0` over the
list returned by `checkConflict`. -/
def conflictFlag (startTime endTime : Int) (events : List GEvent) : Bool :=
  (checkConflict startTime endTime events).length > 0

/-- The spec's description of a conflicting event, stated independently of
the loop: not cancelled, both a timed start and a timed end, and the two
intervals strictly overlap. -/
def specConflicting (startTime endTime : Int) (e : GEvent) : Bool :=
  e.status ≠ some "cancelled" &&
    match e.startTime, e.endTime with
    | some s, some en => decide (s < endTime) && decide (startTime < en)
    | _, _ => false

/-- The projection `checkConflict` applies to a kept event (defined for
events that pass `specConflicting`, whose times are present). -/
def conflictProj (e : GEvent) : ConflictEvent :=
  { id := e.id, summary := e.summary,
    startTime := e.startTime.getD 0, endTime := e.endTime.getD 0 }

/-- The location / conference-data part of the `events.insert` call built by
`GoogleService.createEvent` (src/unnamed/part_004, lines 160-200). -/
structure InsertCall where
  location : Option String
  hasConferenceData : Bool
  conferenceDataVersion : Option Nat
deriving DecidableEq, Repr

/-- JavaScript `s.trim().toLowerCase()` on the character sequence: strip
leading and trailing whitespace, then lowercase each character. -/
def jsTrimLower (s : String) : String :=
  String.mk
    (((s.data.dropWhile Char.isWhitespace).reverse.dropWhile
        Char.isWhitespace).reverse.map Char.toLower)

/-- `createEvent`'s handling of `location`: a physical `location` field is
set only when the supplied string, trimmed and lowercased, is not
"google meet"; when it is "google meet", `conferenceData` with a
hangoutsMeet create-request is added and `conferenceDataVersion: 1` is
passed on the insert call, otherwise neither is. -/
def createEventInsert (location : Option String) : InsertCall :=
  let isMeet : Bool := match location with
    | some l => jsTrimLower l == "google meet"
    | none => false
  { location :=
      match location with
      | some l => if jsTrimLower l ≠ "google meet" then some l else none
      | none => none,
    hasConferenceData := isMeet,
    conferenceDataVersion := if isMeet then some 1 else none }

/-! ## Theorems -/

/-- C1: the authorization gate fails with Unauthorized for every pair of
distinct user ids and succeeds for every pair of equal user ids, the
comparison being on the (string-normalized) ids. -/
theorem authorize_gate_correct (userA userB : String) :
    (userA ≠ userB → authorizeUserAccess (some userA) userB = .error .unauthorized) ∧
    authorizeUserAccess (some userA) userA = .ok true := by
  constructor
  · intro h
    simp [authorizeUserAccess, h]
  · simp [authorizeUserAccess]

/-- Witness for C1 at the concrete pair ("userA", "userB"). -/
theorem authorize_gate_correct_witness :
    authorizeUserAccess (some "userA") "userB" = .error .unauthorized ∧
    authorizeUserAccess (some "userA") "userA" = .ok true :=
  ⟨(authorize_gate_correct "userA" "userB").1 (by decide),
   (authorize_gate_correct "userA" "userA").2⟩

/-- C2: for every stored expiry and every (nonnegative, i.e. real) current
time, a refresh is attempted iff `expires_at` is absent or
`expires_at - now ≤ TOKEN_SKEW_MS`; in particular an absent `expires_at`
always triggers a refresh (treated as expired). -/
theorem freshness_test_correct (expires_at : Option Int) (now : Int)
    (hnow : 0 ≤ now) :
    needsRefresh expires_at now = true ↔
      (expires_at = none ∨ ∃ e, expires_at = some e ∧ e - now ≤ TOKEN_SKEW_MS) := by
  have hW : TOKEN_SKEW_MS = 300000 := rfl
  cases expires_at with
  | none => simp [needsRefresh]
  | some e =>
    simp only [needsRefresh, Bool.or_eq_true, beq_iff_eq, decide_eq_true_eq,
      Option.some.injEq, reduceCtorEq, false_or]
    constructor
    · rintro (h0 | hle)
      · exact ⟨e, rfl, by omega⟩
      · exact ⟨e, rfl, hle⟩
    · rintro ⟨e', he', hle⟩
      subst he'
      exact Or.inr hle

/-- Witness for C2: at `now = 1000000`, an absent expiry and an expiry one
minute out both trigger a refresh. -/
theorem freshness_test_correct_witness :
    needsRefresh none 1000000 = true ∧ needsRefresh (some 1060000) 1000000 = true :=
  ⟨(freshness_test_correct none 1000000 (by decide)).mpr (Or.inl rfl),
   (freshness_test_correct (some 1060000) 1000000 (by decide)).mpr
     (Or.inr ⟨1060000, rfl, by decide⟩)⟩

/-- C8: every authorization URL built by `getGoogleOAuthUrl` requests
offline access and forces re-consent, for every scope list and optional
state. -/
theorem oauth_url_invariants (scopes : List String) (state : Option String) :
    (getGoogleOAuthUrl scopes state).access_type = some "offline" ∧
    (getGoogleOAuthUrl scopes state).prompt = some "consent" :=
  ⟨rfl, rfl⟩

/-- C10: when the supplied location, trimmed and lowercased, equals
"google meet", `createEvent` sends no physical location, adds a Meet
conference create-request, and passes `conferenceDataVersion 1`; any other
location string is passed through unchanged with no conference data. -/
theorem create_event_location (loc : String) :
    (jsTrimLower loc = "google meet" →
      createEventInsert (some loc) =
        { location := none, hasConferenceData := true,
          conferenceDataVersion := some 1 }) ∧
    (jsTrimLower loc ≠ "google meet" →
      createEventInsert (some loc) =
        { location := some loc, hasConferenceData := false,
          conferenceDataVersion := none }) := by
  constructor <;> intro h <;> simp [createEventInsert, h]

/-- Witness for C10: "  Google MEET " normalizes to the marker, "HQ lobby"
does not. -/
theorem create_event_location_witness :
    createEventInsert (some "  Google MEET ") =
      { location := none, hasConferenceData := true,
        conferenceDataVersion := some 1 } ∧
    createEventInsert (some "HQ lobby") =
      { location := some "HQ lobby", hasConferenceData := false,
        conferenceDataVersion := none } :=
  ⟨(create_event_location "  Google MEET ").1 (by decide),
   (create_event_location "HQ lobby").2 (by decide)⟩

/-- A `$set` write that does not touch `_id` lands exactly on the document
found by `_id`. -/
theorem findById_updateById (iid : Nat) (f : Integration → Integration)
    (hf : ∀ x, (f x).id = x.id) :
    ∀ (store : List Integration) (r : Integration),
      findById store iid = some r →
      findById (updateById store iid f) iid = some (f r) := by
  intro store
  induction store with
  | nil => intro r h; simp [findById] at h
  | cons i rest ih =>
    intro r h
    by_cases hi : i.id = iid
    · rw [findById, List.find?_cons_of_pos _ (by simp [hi])] at h
      injection h with h
      subst h
      rw [updateById]
      simp only [hi, beq_self_eq_true, if_true]
      rw [findById, List.find?_cons_of_pos _ (by simp [hf, hi])]
    · rw [findById, List.find?_cons_of_neg _ (by simp [hi])] at h
      rw [updateById]
      simp only [beq_iff_eq, hi, if_false]
      rw [findById, List.find?_cons_of_neg _ (by simp [hi])]
      exact ih r h

/-- C3: when the stored expiry is more than the skew window in the future,
obtaining a client makes no refresh call, writes nothing, leaves the store
unchanged and hands back the untouched integration; running the call again
from the resulting state is the identical no-op. -/
theorem fresh_token_no_refresh (uid : String) (store : List Integration)
    (now : Int) (outcome : RefreshOutcome) (integration : Integration)
    (e : Int)
    (hfind : findIntegration store uid = some integration)
    (hexp : integration.expires_at = some e)
    (hfresh : TOKEN_SKEW_MS < e - now)
    (hnow : 0 ≤ now) :
    (getGoogleService (some uid) store now outcome).refreshCalled = false ∧
    (getGoogleService (some uid) store now outcome).storeWrote = false ∧
    (getGoogleService (some uid) store now outcome).store = store ∧
    (getGoogleService (some uid) store now outcome).result = .ok integration ∧
    getGoogleService (some uid) (getGoogleService (some uid) store now outcome).store
        now outcome =
      getGoogleService (some uid) store now outcome := by
  have hW : TOKEN_SKEW_MS = 300000 := rfl
  rw [hW] at hfresh
  have hnr : needsRefresh integration.expires_at now = false := by
    simp only [needsRefresh, hexp, Bool.or_eq_false_iff, beq_eq_false_iff_ne,
      decide_eq_false_iff_not, not_le, ne_eq]
    constructor
    · omega
    · omega
  simp [getGoogleService, hfind, tokenPhase, hnr]

/-- Witness for C3: a user with an integration expiring 1000 seconds after
`now = 0` gets a client with no refresh and no write, twice over. -/
theorem fresh_token_no_refresh_witness :
    (getGoogleService (some "u1")
        [⟨1, "u1", "google", some "at", some "rt", some 1000000, 0⟩]
        0 .invalidGrant).refreshCalled = false ∧
    (getGoogleService (some "u1")
        [⟨1, "u1", "google", some "at", some "rt", some 1000000, 0⟩]
        0 .invalidGrant).storeWrote = false := by
  have h := fresh_token_no_refresh "u1"
    [⟨1, "u1", "google", some "at", some "rt", some 1000000, 0⟩]
    0 .invalidGrant ⟨1, "u1", "google", some "at", some "rt", some 1000000, 0⟩
    1000000 (by decide) rfl (by decide) (by decide)
  exact ⟨h.1, h.2.1⟩

/-- C4: an `invalid_grant` on refresh surfaces `credentialRevoked`; the
integration document is still present afterwards and equals the old one
with only `updated_at` touched — `access_token` and `refresh_token` are
unchanged. -/
theorem revoked_refresh_keeps_record (uid : String) (store : List Integration)
    (now : Int) (integration : Integration)
    (hfind : findIntegration store uid = some integration)
    (hbyid : findById store integration.id = some integration)
    (hstale : needsRefresh integration.expires_at now = true) :
    (getGoogleService (some uid) store now .invalidGrant).result =
      .error .credentialRevoked ∧
    findById (getGoogleService (some uid) store now .invalidGrant).store
        integration.id =
      some { integration with updated_at := now } ∧
    ({ integration with updated_at := now } : Integration).access_token =
      integration.access_token ∧
    ({ integration with updated_at := now } : Integration).refresh_token =
      integration.refresh_token := by
  refine ⟨?_, ?_, rfl, rfl⟩
  · simp [getGoogleService, hfind, tokenPhase, hstale]
  · simp only [getGoogleService, hfind, tokenPhase, hstale, if_true]
    exact findById_updateById integration.id
      (fun r => { r with updated_at := now }) (fun _ => rfl) store integration hbyid

/-- Witness for C4: a stale integration hit with `invalid_grant` at
`now = 7`. -/
theorem revoked_refresh_keeps_record_witness :
    (getGoogleService (some "u1")
        [⟨1, "u1", "google", some "at", some "rt", some 1000, 0⟩]
        900000 .invalidGrant).result = .error .credentialRevoked ∧
    findById (getGoogleService (some "u1")
        [⟨1, "u1", "google", some "at", some "rt", some 1000, 0⟩]
        900000 .invalidGrant).store 1 =
      some ⟨1, "u1", "google", some "at", some "rt", some 1000, 900000⟩ := by
  have h := revoked_refresh_keeps_record "u1"
    [⟨1, "u1", "google", some "at", some "rt", some 1000, 0⟩] 900000
    ⟨1, "u1", "google", some "at", some "rt", some 1000, 0⟩
    (by decide) (by decide) (by decide)
  exact ⟨h.1, h.2.1⟩

/-- C5: on a successful refresh, each field enters the `$set` document only
when the provider returned it and it differs from the stored value
(refresh token only when a new one came back); when nothing changed there
is no write at all; when something changed, the write carries
`updated_at = now` together with the changed fields, the persisted
document is exactly the updated one, and the in-memory integration handed
to the rest of the request is that same updated record. -/
theorem refresh_success_persists_only_changes (integration : Integration)
    (tokens : Tokens) (store : List Integration) (now : Int)
    (hstale : needsRefresh integration.expires_at now = true)
    (hbyid : findById store integration.id = some integration) :
    (∀ t, (computeUpdates integration tokens).refresh_token = some t →
      tokens.refresh_token = some t ∧ integration.refresh_token ≠ some t) ∧
    (∀ a, (computeUpdates integration tokens).access_token = some a →
      tokens.access_token = some a ∧ integration.access_token ≠ some a) ∧
    (∀ x, (computeUpdates integration tokens).expires_at = some x →
      tokens.expiry_date = some x ∧ integration.expires_at ≠ some x) ∧
    (nonEmptyUpdates (computeUpdates integration tokens) = false →
      (tokenPhase integration store now (.success tokens)).storeWrote = false ∧
      (tokenPhase integration store now (.success tokens)).store = store ∧
      (tokenPhase integration store now (.success tokens)).result = .ok integration) ∧
    (nonEmptyUpdates (computeUpdates integration tokens) = true →
      (tokenPhase integration store now (.success tokens)).result =
        .ok (applyUpdates integration (computeUpdates integration tokens) now) ∧
      findById (tokenPhase integration store now (.success tokens)).store
          integration.id =
        some (applyUpdates integration (computeUpdates integration tokens) now) ∧
      (applyUpdates integration (computeUpdates integration tokens) now).updated_at
        = now) := by
  refine ⟨?_, ?_, ?_, ?_, ?_⟩
  · intro t ht
    simp only [computeUpdates] at ht
    split at ht
    case isTrue h =>
      refine ⟨ht, ?_⟩
      rw [← ht]
      exact fun hc => h.2 hc.symm
    case isFalse h => simp at ht
  · intro a ha
    simp only [computeUpdates] at ha
    split at ha
    case isTrue h =>
      refine ⟨ha, ?_⟩
      rw [← ha]
      exact fun hc => h.2 hc.symm
    case isFalse h => simp at ha
  · intro x hx
    simp only [computeUpdates] at hx
    split at hx
    case isTrue h =>
      refine ⟨hx, ?_⟩
      rw [← hx]
      exact fun hc => h.2 hc.symm
    case isFalse h => simp at hx
  · intro hempty
    simp [tokenPhase, hstale, hempty]
  · intro hnonempty
    refine ⟨?_, ?_, rfl⟩
    · simp [tokenPhase, hstale, hnonempty]
    · simp only [tokenPhase, hstale, hnonempty, if_true]
      exact findById_updateById integration.id
        (fun r => applyUpdates r (computeUpdates integration tokens) now)
        (fun _ => rfl) store integration hbyid

/-- Witness for C5: a stale integration refreshed with a new access token
and rotated refresh token at `now = 900000`; the expiry is unchanged. -/
theorem refresh_success_persists_only_changes_witness :
    (tokenPhase ⟨1, "u1", "google", some "at", some "rt", some 1000, 0⟩
        [⟨1, "u1", "google", some "at", some "rt", some 1000, 0⟩]
        900000 (.success ⟨some "at2", some "rt2", some 1000⟩)).result =
      .ok ⟨1, "u1", "google", some "at2", some "rt2", some 1000, 900000⟩ := by
  have h := refresh_success_persists_only_changes
    ⟨1, "u1", "google", some "at", some "rt", some 1000, 0⟩
    ⟨some "at2", some "rt2", some 1000⟩
    [⟨1, "u1", "google", some "at", some "rt", some 1000, 0⟩]
    900000 (by decide) (by decide)
  have h2 := (h.2.2.2.2 (by decide)).1
  rw [h2]
  rfl

/-- C6: the internal entry point taking explicit ids rejects every pair of
distinct target and calling ids with `unauthorized` before touching the
store: no read, no refresh, no write, store unchanged — whatever the store
contains. -/
theorem internal_entry_auth_before_store (userId requestingUserId : String)
    (store : List Integration) (now : Int) (outcome : RefreshOutcome)
    (h : userId ≠ requestingUserId) :
    (getGoogleServiceByUserId userId requestingUserId store now outcome).result =
      .error .unauthorized ∧
    (getGoogleServiceByUserId userId requestingUserId store now outcome).storeRead
      = false ∧
    (getGoogleServiceByUserId userId requestingUserId store now outcome).refreshCalled
      = false ∧
    (getGoogleServiceByUserId userId requestingUserId store now outcome).storeWrote
      = false ∧
    (getGoogleServiceByUserId userId requestingUserId store now outcome).store
      = store := by
  simp [getGoogleServiceByUserId, h]

/-- Witness for C6: userB's integration exists in the store, yet userA's
request is rejected without any store access. -/
theorem internal_entry_auth_before_store_witness :
    (getGoogleServiceByUserId "userB" "userA"
        [⟨1, "userB", "google", some "at", some "rt", some 1000, 0⟩]
        0 .invalidGrant).result = .error .unauthorized ∧
    (getGoogleServiceByUserId "userB" "userA"
        [⟨1, "userB", "google", some "at", some "rt", some 1000, 0⟩]
        0 .invalidGrant).storeRead = false := by
  have h := internal_entry_auth_before_store "userB" "userA"
    [⟨1, "userB", "google", some "at", some "rt", some 1000, 0⟩]
    0 .invalidGrant (by decide)
  exact ⟨h.1, h.2.1⟩

/-- C7: an authenticated user with no stored "google" integration gets
`notConnected` from `getGoogleService`; no refresh call is made, nothing
is written, and the store is unchanged. -/
theorem no_integration_not_connected (uid : String) (store : List Integration)
    (now : Int) (outcome : RefreshOutcome)
    (h : findIntegration store uid = none) :
    (getGoogleService (some uid) store now outcome).result = .error .notConnected ∧
    (getGoogleService (some uid) store now outcome).refreshCalled = false ∧
    (getGoogleService (some uid) store now outcome).storeWrote = false ∧
    (getGoogleService (some uid) store now outcome).store = store := by
  simp [getGoogleService, h]

/-- Witness for C7: a user with an empty store. -/
theorem no_integration_not_connected_witness :
    (getGoogleService (some "u1") [] 0 .invalidGrant).result =
      .error .notConnected := by
  exact (no_integration_not_connected "u1" [] 0 .invalidGrant rfl).1

/-- The scan loop is the filter by `specConflicting` followed by the
projection. -/
theorem checkConflict_eq_filter (s en : Int) (events : List GEvent) :
    checkConflict s en events =
      (events.filter (specConflicting s en)).map conflictProj := by
  induction events with
  | nil => rfl
  | cons e rest ih =>
    by_cases hc : e.status = some "cancelled"
    · simp [checkConflict, specConflicting, hc, ih]
    · cases hs : e.startTime with
      | none => simp [checkConflict, specConflicting, hc, hs, ih]
      | some sv =>
        cases he : e.endTime with
        | none => simp [checkConflict, specConflicting, hc, hs, he, ih]
        | some ev =>
          by_cases hov : sv < en ∧ s < ev
          · simp [checkConflict, specConflicting, conflictProj, hc, hs, he,
              hov.1, hov.2, ih]
          · rw [Decidable.not_and_iff_or_not] at hov
            rcases hov with hov | hov
            · simp [checkConflict, specConflicting, hc, hs, he, hov, ih]
            · simp [checkConflict, specConflicting, hc, hs, he, hov, ih]

/-- C9: the conflict check returns exactly the projections of the fetched
events that are not cancelled, carry both a timed start and a timed end,
and strictly overlap the requested interval; the controller's `conflict`
flag is true iff such an event exists in the fetched list. -/
theorem conflict_scan_correct (s en : Int) (events : List GEvent) :
    checkConflict s en events =
      (events.filter (specConflicting s en)).map conflictProj ∧
    (conflictFlag s en events = true ↔
      ∃ e ∈ events, specConflicting s en e = true) := by
  refine ⟨checkConflict_eq_filter s en events, ?_⟩
  rw [conflictFlag, checkConflict_eq_filter s en events]
  simp [List.length_pos, List.filter_eq_nil_iff]

end Reworq
